import Mathlib

/-!
Verification development for the nana runtime validation library
(context/path model, error-stamping validator core, pipe composition with
abort flag, structural validators, entry point). JavaScript values are
embedded as an inductive type; the shared mutable context is threaded
explicitly: a validator returns its result together with the context state
it leaves behind (mutations to the shared context object persist even when
the validator throws, so the error branch also carries the updated context).
-/

namespace Nana

/-- JavaScript values in the fragment the library manipulates. -/
inductive JsValue : Type
  | null
  | undefined
  | str (s : String)
  | num (n : Int)
  | bool (b : Bool)
  | arr (items : List JsValue)
  | obj (fields : List (String × JsValue))


/-- A context key: `string | number | null` in the source. -/
inductive JsKey : Type
  | null
  | str (s : String)
  | num (n : Nat)


/-- The `Ctx` record. The optional `__abortPipe` field is modelled as a
`Bool` where `false` stands for the field being absent. -/
structure Ctx : Type where
  path : String
  key : JsKey
  parent : JsValue
  root : JsValue
  value : JsValue
  abortPipe : Bool


/-- `ValidationError`: a JS `Error` with optional stamped fields; `none`
models an absent field. -/
structure ValidationError : Type where
  message : String
  expected : Option String
  actual : Option JsValue
  path : Option String
  key : Option JsKey
  parent : Option JsValue
  root : Option JsValue


/-- `new Error(message)`: a bare error with no stamped fields. -/
def mkError (message : String) : ValidationError :=
  { message := message, expected := none, actual := none, path := none,
    key := none, parent := none, root := none }

/-- `makeCtx(parentCtx, key, value)` from the source: root path is `$`;
a numeric key appends `[key]`, any other key appends `.` followed by the
key's string interpolation (`String(null)` is `"null"`). -/
def makeCtx (parentCtx : Option Ctx) (key : JsKey) (value : JsValue) : Ctx :=
  let path :=
    match parentCtx with
    | none => "$"
    | some p =>
      match key with
      | .num k => p.path ++ "[" ++ toString k ++ "]"
      | .str s => p.path ++ "." ++ s
      | .null => p.path ++ "." ++ "null"
  { path := path
    key := key
    parent := match parentCtx with | none => .null | some p => p.value
    root := match parentCtx with | none => value | some p => p.root
    value := value
    abortPipe := false }

/-- Hex digit for JSON control-character escapes. -/
def hexDigit (n : Nat) : Char :=
  if n < 10 then Char.ofNat (48 + n) else Char.ofNat (87 + n)

/-- JSON string escaping of a single character, as `JSON.stringify` does. -/
def jsonEscapeChar (c : Char) : String :=
  if c = '"' then "\\\""
  else if c = '\\' then "\\\\"
  else if c = '\x08' then "\\b"
  else if c = '\x09' then "\\t"
  else if c = '\x0a' then "\\n"
  else if c = '\x0c' then "\\f"
  else if c = '\x0d' then "\\r"
  else if c.toNat < 32 then
    "\\u00" ++ String.singleton (hexDigit (c.toNat / 16))
      ++ String.singleton (hexDigit (c.toNat % 16))
  else String.singleton c

/-- JSON quoting of a string. -/
def jsonQuote (s : String) : String :=
  "\"" ++ String.join (s.toList.map jsonEscapeChar) ++ "\""

mutual

/-- `JSON.stringify` restricted to the embedded value fragment: `undefined`
renders as `null` inside arrays and is skipped inside objects. -/
def jsonStringify : JsValue → String
  | .null => "null"
  | .undefined => "null"
  | .str s => jsonQuote s
  | .num n => toString n
  | .bool b => if b then "true" else "false"
  | .arr items => "[" ++ String.intercalate "," (jsonElems items) ++ "]"
  | .obj fields => "\x7b" ++ String.intercalate "," (jsonMembers fields) ++ "\x7d"

/-- Renders each array element. -/
def jsonElems : List JsValue → List String
  | [] => []
  | x :: xs => jsonStringify x :: jsonElems xs

/-- Renders each object member, dropping `undefined`-valued keys. -/
def jsonMembers : List (String × JsValue) → List String
  | [] => []
  | (k, v) :: rest =>
    match v with
    | .undefined => jsonMembers rest
    | v => (jsonQuote k ++ ":" ++ jsonStringify v) :: jsonMembers rest

end

/-- `formatValue` from the source, on the embedded fragment: null/undefined
via `String(value)`, strings verbatim, numbers and booleans via `String`,
arrays and plain objects via `JSON.stringify`. -/
def formatValue (value : JsValue) : String :=
  match value with
  | .null => "null"
  | .undefined => "undefined"
  | .str s => s
  | .num n => toString n
  | .bool b => if b then "true" else "false"
  | .arr _ => jsonStringify value
  | .obj _ => jsonStringify value

/-- A validator: `(value, ctx) -> output or throw`, returning the context
state it leaves the shared context object in (also on the throwing path). -/
abbrev Validator : Type := JsValue → Ctx → Except ValidationError JsValue × Ctx

/-- JS truthiness of the `expected` field: absent or the empty string is
falsy, so `if (!error.expected)` stamps exactly in these cases. -/
def falsyExpected : Option String → Bool
  | none => true
  | some s => s = ""

/-- The one-time enrichment performed in `createValidator`'s catch block. -/
def stampError (name : String) (value : JsValue) (ctx : Ctx)
    (e : ValidationError) : ValidationError :=
  { e with
    expected := some name
    actual := some value
    path := some ctx.path
    key := some ctx.key
    parent := some ctx.parent
    root := some ctx.root }

/-- `createValidator(name, handler)` applied to its (already captured)
configuration: wraps the handler, and on a thrown error stamps
`expected/actual/path/key/parent/root` only when `expected` is falsy. -/
def createValidator (name : String)
    (handler : JsValue → Ctx → Except ValidationError JsValue × Ctx) : Validator :=
  fun value ctx =>
    match handler value ctx with
    | (.ok r, c) => (.ok r, c)
    | (.error e, c) =>
      if falsyExpected e.expected then (.error (stampError name value c e), c)
      else (.error e, c)

/-- The loop body of `pipe`: before each step the abort flag is consulted
(break when set); after the loop ends or breaks, `delete ctx.__abortPipe`
clears the flag. A thrown step exits the loop without reaching the delete. -/
def pipeLoop : List Validator → JsValue → Ctx → Except ValidationError JsValue × Ctx
  | [], value, ctx => (.ok value, { ctx with abortPipe := false })
  | v :: rest, value, ctx =>
    if ctx.abortPipe then (.ok value, { ctx with abortPipe := false })
    else
      match v value ctx with
      | (.ok value', ctx') => pipeLoop rest value' ctx'
      | (.error e, ctx') => (.error e, ctx')

/-- `pipe(...validators)` from the source. -/
def pipe (validators : List Validator) : Validator :=
  createValidator "pipe" (fun value ctx => pipeLoop validators value ctx)

/-- `transform(fn)` from the source. -/
def transform (fn : JsValue → Ctx → Except ValidationError JsValue × Ctx) : Validator :=
  createValidator "transform" (fun value ctx => fn value ctx)

/-- JS `msg || fallback` on an optional string: an absent or empty message
falls back to the default. -/
def jsOr (msg : Option String) (fallback : String) : String :=
  match msg with
  | some s => if s = "" then fallback else s
  | none => fallback

/-- JS strict equality `result === true`: holds only for the literal
boolean `true`. -/
def isTrueLiteral : JsValue → Bool
  | .bool b => b
  | _ => false

/-- `check(fn, msg)` from the source; `fnName` is the predicate's declared
JS name (`""` for an anonymous function), so `expected = fn.name || 'check'`. -/
def check (fnName : String) (fn : JsValue → Ctx → JsValue) (msg : Option String) : Validator :=
  let expected := if fnName = "" then "check" else fnName
  createValidator expected (fun value ctx =>
    let result := fn value ctx
    if isTrueLiteral result then (.ok value, ctx)
    else
      (.error (mkError (jsOr msg
        ("(" ++ ctx.path ++ ": " ++ formatValue value ++ ") ✖ " ++ expected))), ctx))

/-- The discriminated result of `validate`. -/
inductive ValidateResult : Type
  | ok (result : JsValue)
  | fail (error : ValidationError) (result : JsValue)


/-- The `valid` discriminant. -/
def ValidateResult.isValid : ValidateResult → Bool
  | .ok _ => true
  | .fail _ _ => false

/-- The `result` field. -/
def ValidateResult.resultValue : ValidateResult → JsValue
  | .ok r => r
  | .fail _ r => r

/-- The `error.path` field when there is an error. -/
def ValidateResult.errorPath : ValidateResult → Option String
  | .ok _ => none
  | .fail e _ => e.path

/-- The root context literal built at the top of `validate`. -/
def initCtx (value : JsValue) (rootPath : String) : Ctx :=
  { path := rootPath, key := .null, parent := .null, root := value,
    value := value, abortPipe := false }

/-- `validate(schema, value, rootPath)` from the source (callers in the
claims use the default root path `"$"`). -/
def validate (schema : Validator) (value : JsValue) (rootPath : String) : ValidateResult :=
  match schema value (initCtx value rootPath) with
  | (.ok result, _) => .ok result
  | (.error e, _) => .fail e value

/-- JS loose equality `value == null`: true exactly for null and undefined. -/
def eqNullLoose : JsValue → Bool
  | .null => true
  | .undefined => true
  | _ => false

/-- `required(msg?)` from the source. -/
def required (msg : Option String) : Validator :=
  createValidator "required" (fun value ctx =>
    if eqNullLoose value then
      (.error (mkError (jsOr msg
        ("(" ++ ctx.path ++ ": " ++ formatValue value ++ ") ✖ required"))), ctx)
    else (.ok value, ctx))

/-- `optional()` from the source: on null/undefined sets `__abortPipe` on
the shared context and returns the value; otherwise passes through. -/
def optional : Validator :=
  createValidator "optional" (fun value ctx =>
    if eqNullLoose value then (.ok value, { ctx with abortPipe := true })
    else (.ok value, ctx))

/-- `string(msg?)` from the source. -/
def string (msg : Option String) : Validator :=
  createValidator "string" (fun value ctx =>
    match value with
    | .str _ => (.ok value, ctx)
    | _ =>
      (.error (mkError (jsOr msg
        ("(" ++ ctx.path ++ ": " ++ formatValue value ++ ") ✖ string"))), ctx))

/-- `number(msg?)` from the source. -/
def number (msg : Option String) : Validator :=
  createValidator "number" (fun value ctx =>
    match value with
    | .num _ => (.ok value, ctx)
    | _ =>
      (.error (mkError (jsOr msg
        ("(" ++ ctx.path ++ ": " ++ formatValue value ++ ") ✖ number"))), ctx))

/-- JS property read `value[key]` as used by `object`: an absent key (or a
non-object receiver) yields `undefined`. -/
def jsGet (value : JsValue) (key : String) : JsValue :=
  match value with
  | .obj fields =>
    match fields.lookup key with
    | some v => v
    | none => .undefined
  | _ => .undefined

/-- The `for (const key in shape)` loop of `object`: each member is
validated against a fresh child context; the first failure propagates. -/
def objLoop (ctx : Ctx) (value : JsValue) :
    List (String × Validator) → Except ValidationError (List (String × JsValue))
  | [] => .ok []
  | (key, v) :: rest =>
    match v (jsGet value key) (makeCtx (some ctx) (.str key) (jsGet value key)) with
    | (.ok out, _) =>
      match objLoop ctx value rest with
      | .ok outs => .ok ((key, out) :: outs)
      | .error e => .error e
    | (.error e, _) => .error e

/-- `object(shape, msg?)` from the source: the type guard rejects
non-objects, null and arrays; only a keyed object passes. -/
def object (shape : List (String × Validator)) (msg : Option String) : Validator :=
  createValidator "object" (fun value ctx =>
    match value with
    | .obj _ =>
      match objLoop ctx value shape with
      | .ok outs => (.ok (.obj outs), ctx)
      | .error e => (.error e, ctx)
    | _ =>
      (.error (mkError (jsOr msg
        ("(" ++ ctx.path ++ ": " ++ formatValue value ++ ") ✖ object"))), ctx))

/-- The `value.map((item, i) => ...)` loop of `array`, with the running
zero-based index; the first failure propagates. -/
def arrLoop (ctx : Ctx) (validator : Validator) :
    Nat → List JsValue → Except ValidationError (List JsValue)
  | _, [] => .ok []
  | i, item :: rest =>
    match validator item (makeCtx (some ctx) (.num i) item) with
    | (.ok out, _) =>
      match arrLoop ctx validator (i + 1) rest with
      | .ok outs => .ok (out :: outs)
      | .error e => .error e
    | (.error e, _) => .error e

/-- `array(itemValidator, msg?)` from the source. -/
def array (itemValidator : Validator) (msg : Option String) : Validator :=
  createValidator "array" (fun value ctx =>
    match value with
    | .arr items =>
      match arrLoop ctx itemValidator 0 items with
      | .ok outs => (.ok (.arr outs), ctx)
      | .error e => (.error e, ctx)
    | _ =>
      (.error (mkError (jsOr msg
        ("(" ++ ctx.path ++ ": " ++ formatValue value ++ ") ✖ array"))), ctx))

/-! Concrete schemas and inputs used by the claims and their witnesses. -/

/-- The nested shape schema of the fail-fast shape example. -/
def nestedSchema : Validator :=
  object [("user", object [("name", string none), ("age", number none)] none)] none

/-- The input of the fail-fast shape example. -/
def nestedInput : JsValue :=
  .obj [("user", .obj [("name", .str "nana"), ("age", .str "bad")])]

/-- The array-of-number schema of the fail-fast sequence example. -/
def arraySchema : Validator := array (number none) none

/-- The input of the fail-fast sequence example. -/
def arrayInput : JsValue := .arr [.num 1, .str "x", .num 3]

/-- A transform step that increments a numeric value. -/
def jsAdd1 : JsValue → JsValue
  | .num n => .num (n + 1)
  | v => v

/-- A pipeline whose first step transforms the value and whose second step
then fails, exercising the entry point's failure result. -/
def transformThenFail : Validator :=
  pipe [transform (fun v c => (.ok (jsAdd1 v), c)), string none]

/-- A validator that mutates the shared context by setting the abort flag
and then throws. -/
def setsFlagAndThrows : Validator :=
  fun _ ctx => (.error (mkError "boom"), { ctx with abortPipe := true })

/-! Helper lemmas about the validator wrapper and the pipe loop. -/

/-- The wrapper is transparent on the success path. -/
theorem createValidator_ok_iff (name : String)
    (handler : JsValue → Ctx → Except ValidationError JsValue × Ctx)
    (value r : JsValue) (ctx c : Ctx) :
    createValidator name handler value ctx = (.ok r, c) ↔
      handler value ctx = (.ok r, c) := by
  unfold createValidator
  rcases hh : handler value ctx with ⟨res, c2⟩
  cases res with
  | ok v => simp
  | error e => dsimp only; split <;> simp

/-- The wrapper's behaviour on the throwing path, as a single equation. -/
theorem createValidator_error_eq (name : String)
    (handler : JsValue → Ctx → Except ValidationError JsValue × Ctx)
    (value : JsValue) (ctx c : Ctx) (e : ValidationError)
    (h : handler value ctx = (.error e, c)) :
    createValidator name handler value ctx =
      (if falsyExpected e.expected then (.error (stampError name value c e), c)
       else (.error e, c)) := by
  unfold createValidator
  rw [h]

/-- A successful run of the pipe loop always ends in the flag-clearing
`delete`, so the context it returns has the abort flag unset. -/
theorem pipeLoop_ok_clears (vs : List Validator) :
    ∀ (value r : JsValue) (ctx ctx' : Ctx),
      pipeLoop vs value ctx = (.ok r, ctx') → ctx'.abortPipe = false := by
  induction vs with
  | nil =>
    intro value r ctx ctx' h
    unfold pipeLoop at h
    simp only [Prod.mk.injEq, Except.ok.injEq] at h
    rw [← h.2]
  | cons v rest ih =>
    intro value r ctx ctx' h
    unfold pipeLoop at h
    by_cases habort : ctx.abortPipe
    · rw [if_pos habort] at h
      simp only [Prod.mk.injEq, Except.ok.injEq] at h
      rw [← h.2]
    · rw [if_neg habort] at h
      rcases hv : v value ctx with ⟨res, c2⟩
      rw [hv] at h
      cases res with
      | ok v2 => exact ih v2 r c2 ctx' h
      | error e => simp at h

/-- C10: at runtime, `pipe` of zero validators is the identity on the value
and leaves the context's abort flag cleared, rather than failing. -/
theorem pipe_empty_is_identity (value : JsValue) (ctx : Ctx) :
    pipe [] value ctx = (.ok value, { ctx with abortPipe := false }) := rfl

/-- C1 counterexample: a pipe step that sets the shared context's abort
flag and then throws returns control to the caller with the flag still
set, because the flag-clearing `delete` is skipped on the throwing path. -/
theorem pipe_abort_flag_leaks_on_throw :
    ((pipe [setsFlagAndThrows]) (JsValue.num 0) (initCtx (JsValue.num 0) "$")).2.abortPipe
      = true := rfl

/-- C1 amended: whenever a pipe returns successfully to its caller (all
steps completed, or it short-circuited on the abort flag) the context's
abort flag is cleared; when a step throws, the flag is left as the failing
step left it. -/
theorem pipe_clears_abort_on_success (vs : List Validator) (value r : JsValue)
    (ctx ctx' : Ctx) (h : pipe vs value ctx = (.ok r, ctx')) :
    ctx'.abortPipe = false := by
  have hh := (createValidator_ok_iff "pipe" (fun v c => pipeLoop vs v c) value r ctx ctx').mp h
  exact pipeLoop_ok_clears vs value r ctx ctx' hh

/-- Witness for the amended C1 theorem at a concrete pipe run in which
`optional` sets the flag and the pipe then short-circuits. -/
theorem pipe_clears_abort_on_success_witness :
    ({ initCtx JsValue.null "$" with abortPipe := false } : Ctx).abortPipe = false :=
  pipe_clears_abort_on_success [optional] JsValue.null JsValue.null
    (initCtx JsValue.null "$") { initCtx JsValue.null "$" with abortPipe := false } rfl

/-- C5: pipe applies its validators in declared order, the output of each
step feeding the next; before each step it consults the context's abort
flag, and when the flag is set the remaining steps are skipped and the
value produced so far is returned as-is. -/
theorem pipe_ordered_with_abort_check (vs rest : List Validator) (v1 : Validator)
    (value value' : JsValue) (ctx ctx' : Ctx) :
    pipe vs = createValidator "pipe" (fun v c => pipeLoop vs v c) ∧
    (ctx.abortPipe = true →
      pipe vs value ctx = (.ok value, { ctx with abortPipe := false })) ∧
    (ctx.abortPipe = false → v1 value ctx = (.ok value', ctx') →
      pipeLoop (v1 :: rest) value ctx = pipeLoop rest value' ctx') := by
  refine ⟨rfl, ?_, ?_⟩
  · intro habort
    unfold pipe
    rw [createValidator_ok_iff]
    cases vs with
    | nil => rfl
    | cons v tail =>
      show pipeLoop (v :: tail) value ctx = _
      unfold pipeLoop
      rw [if_pos habort]
  · intro habort hv1
    conv_lhs => unfold pipeLoop
    rw [if_neg (by rw [habort]; exact Bool.false_ne_true), hv1]

/-- Witness for C5 at a concrete input: a context entering with the abort
flag set short-circuits past a string check and returns the value as-is. -/
theorem pipe_ordered_with_abort_check_witness :
    pipe [string none] (JsValue.num 3) { initCtx (JsValue.num 3) "$" with abortPipe := true }
      = (.ok (JsValue.num 3),
          { { initCtx (JsValue.num 3) "$" with abortPipe := true } with abortPipe := false }) :=
  (pipe_ordered_with_abort_check [string none] [] (string none) (JsValue.num 3) (JsValue.num 3)
    { initCtx (JsValue.num 3) "$" with abortPipe := true } (initCtx (JsValue.num 3) "$")).2.1 rfl

/-! Error stamping (claim C2). -/

/-- A stack of enclosing wrappers around a validator, each built by
`createValidator` and invoking its child on the same value and context, as
`pipe` does with its first step. -/
def nestValidators (names : List String) (v : Validator) : Validator :=
  names.foldr (fun n acc => createValidator n (fun value ctx => acc value ctx)) v

/-- A validator's already-stamped error propagates unchanged through any
stack of enclosing wrappers. -/
theorem nest_propagates_stamped (v : Validator) (value : JsValue) (ctx ctx' : Ctx)
    (e : ValidationError) (hfalsy : falsyExpected e.expected = false)
    (h : v value ctx = (.error e, ctx')) :
    ∀ names, nestValidators names v value ctx = (.error e, ctx') := by
  intro names
  induction names with
  | nil => simpa [nestValidators] using h
  | cons n ns ih =>
    show createValidator n (fun value ctx => nestValidators ns v value ctx) value ctx = _
    rw [createValidator_error_eq n _ value ctx ctx' e ih, if_neg]
    rw [hfalsy]
    exact Bool.false_ne_true

/-- C2: the wrapper built by `createValidator` re-throws an error that
already carries a (truthy) failure-kind name completely unchanged — and
hence unchanged through any number of enclosing wrappers — and stamps
`expected`, `actual` and the location quad only when `expected` is absent
(or empty, which JS treats the same as absent). -/
theorem createValidator_first_stamp (name : String)
    (handler : JsValue → Ctx → Except ValidationError JsValue × Ctx)
    (value : JsValue) (ctx ctx' : Ctx) (e : ValidationError)
    (h : handler value ctx = (.error e, ctx')) :
    (falsyExpected e.expected = false →
      createValidator name handler value ctx = (.error e, ctx') ∧
      ∀ names, nestValidators names (createValidator name handler) value ctx
        = (.error e, ctx')) ∧
    (falsyExpected e.expected = true →
      createValidator name handler value ctx =
        (.error { e with
            expected := some name
            actual := some value
            path := some ctx'.path
            key := some ctx'.key
            parent := some ctx'.parent
            root := some ctx'.root }, ctx')) := by
  constructor
  · intro hfalsy
    have hbase : createValidator name handler value ctx = (.error e, ctx') := by
      rw [createValidator_error_eq name handler value ctx ctx' e h, if_neg]
      rw [hfalsy]
      exact Bool.false_ne_true
    exact ⟨hbase, nest_propagates_stamped _ value ctx ctx' e hfalsy hbase⟩
  · intro hfalsy
    rw [createValidator_error_eq name handler value ctx ctx' e h, if_pos hfalsy]
    rfl

/-- A handler whose thrown error is already stamped by an inner validator
named "inner". -/
def innerStampedErr : ValidationError :=
  { message := "inner boom"
    expected := some "inner"
    actual := some (JsValue.num 1)
    path := some "$.a"
    key := some (JsKey.str "a")
    parent := some JsValue.null
    root := some (JsValue.num 1) }

/-- A handler that throws the already-stamped error. -/
def innerThrowingHandler : JsValue → Ctx → Except ValidationError JsValue × Ctx :=
  fun _ ctx => (.error innerStampedErr, ctx)

/-- Witness for C2: an enclosing wrapper named "outer" re-throws the
already-stamped error of an inner validator unchanged. -/
theorem createValidator_first_stamp_witness :
    createValidator "outer" innerThrowingHandler (JsValue.num 1) (initCtx (JsValue.num 1) "$")
      = (.error innerStampedErr, initCtx (JsValue.num 1) "$") :=
  ((createValidator_first_stamp "outer" innerThrowingHandler (JsValue.num 1)
    (initCtx (JsValue.num 1) "$") (initCtx (JsValue.num 1) "$") innerStampedErr rfl).1 rfl).1

/-! Path derivation (claim C4). -/

/-- A descent key as the claim ranges over them: a field name or an
integer index. -/
def NamedKey : Type := String ⊕ Nat

/-- The embedding of a descent key into the context key type. -/
def keyOf : NamedKey → JsKey
  | .inl s => .str s
  | .inr n => .num n

/-- The rendering of one key in a derived path: `.k` for a name, `[k]`
for an integer index, exactly as `makeCtx` appends it. -/
def renderKey : NamedKey → String
  | .inl s => "." ++ s
  | .inr n => "[" ++ toString n ++ "]"

/-- The concatenated rendering of a chain of keys. -/
def renderKeys : List NamedKey → String
  | [] => ""
  | k :: rest => renderKey k ++ renderKeys rest

/-- Descending from a context through a chain of (key, value) pairs via
`makeCtx`, as the structural validators do member by member. -/
def chainCtx : Ctx → List (NamedKey × JsValue) → Ctx
  | c, [] => c
  | c, (k, v) :: rest => chainCtx (makeCtx (some c) (keyOf k) v) rest

/-- One descent appends exactly the rendering of its key to the path. -/
theorem makeCtx_path_step (c : Ctx) (k : NamedKey) (v : JsValue) :
    (makeCtx (some c) (keyOf k) v).path = c.path ++ renderKey k := by
  cases k with
  | inl s => exact String.append_assoc c.path "." s
  | inr n =>
    show ((c.path ++ "[") ++ toString n) ++ "]" = c.path ++ (("[" ++ toString n) ++ "]")
    simp [String.append_assoc]

/-- The path of a chained descent is the starting path followed by the
rendering of each key, independent of the values descended through. -/
theorem chainCtx_path (ks : List (NamedKey × JsValue)) :
    ∀ c : Ctx, (chainCtx c ks).path = c.path ++ renderKeys (ks.map Prod.fst) := by
  induction ks with
  | nil =>
    intro c
    show c.path = c.path ++ ""
    exact (String.append_empty c.path).symm
  | cons kv rest ih =>
    intro c
    obtain ⟨k, v⟩ := kv
    show (chainCtx (makeCtx (some c) (keyOf k) v) rest).path = _
    rw [ih, makeCtx_path_step, List.map_cons]
    show _ = c.path ++ (renderKey k ++ renderKeys (rest.map Prod.fst))
    rw [String.append_assoc]

/-- C4: for every chain of keys descended from the root via `makeCtx`, the
derived path is the root marker `$` followed by `[k]` for each integer key
and `.k` for each name key, in order, and depends only on the key chain,
not on any of the values involved. -/
theorem path_determinism (rootVal : JsValue) (ks : List (NamedKey × JsValue)) :
    (chainCtx (makeCtx none JsKey.null rootVal) ks).path
      = "$" ++ renderKeys (ks.map Prod.fst) := by
  rw [chainCtx_path]
  rfl

/-! Control validator `optional` (claim C6). -/

/-- C6: `optional` sets the shared context's abort flag and returns the
value unchanged when the value is null or undefined, and passes the value
through without touching the flag otherwise; consequently
`validate(pipe(optional(), string()), null)` succeeds with result null and
`validate(pipe(optional(), string()), "ok")` succeeds with result "ok". -/
theorem optional_aborts_on_nullish (value : JsValue) (ctx : Ctx) :
    optional value ctx =
      (.ok value, if eqNullLoose value then { ctx with abortPipe := true } else ctx) ∧
    validate (pipe [optional, string none]) JsValue.null "$" = .ok JsValue.null ∧
    validate (pipe [optional, string none]) (JsValue.str "ok") "$" = .ok (JsValue.str "ok") := by
  refine ⟨?_, rfl, rfl⟩
  show createValidator "optional" _ value ctx = _
  cases h : eqNullLoose value with
  | true =>
    rw [if_pos rfl, createValidator_ok_iff]
    show (if eqNullLoose value then _ else _) = _
    rw [if_pos h]
  | false =>
    rw [if_neg Bool.false_ne_true, createValidator_ok_iff]
    show (if eqNullLoose value then _ else _) = _
    rw [if_neg (by rw [h]; exact Bool.false_ne_true)]

/-! Predicate gate `check` (claims C7). -/

/-- The thrown error's message of a validator run, when it threw. -/
def thrownMessage (r : Except ValidationError JsValue × Ctx) : Option String :=
  match r.1 with
  | .error e => some e.message
  | .ok _ => none

/-- The handler captured inside `check`, written out with its configured
name inlined; `check` is definitionally this handler wrapped by
`createValidator` under that name. -/
def checkHandler (fnName : String) (fn : JsValue → Ctx → JsValue) (msg : Option String) :
    JsValue → Ctx → Except ValidationError JsValue × Ctx :=
  fun value ctx =>
    if isTrueLiteral (fn value ctx) then (.ok value, ctx)
    else
      (.error (mkError (jsOr msg ("(" ++ ctx.path ++ ": " ++ formatValue value ++ ") ✖ "
        ++ (if fnName = "" then "check" else fnName)))), ctx)

/-- `check` unfolds to the wrapper around its handler. -/
theorem check_eq_handler (fnName : String) (fn : JsValue → Ctx → JsValue)
    (msg : Option String) :
    check fnName fn msg = createValidator (if fnName = "" then "check" else fnName)
      (checkHandler fnName fn msg) := rfl

/-- A freshly constructed error has a falsy `expected` field. -/
theorem falsy_mkError (m : String) : falsyExpected (mkError m).expected = true := rfl

/-- C7 counterexample: with a caller-supplied message that is the empty
string, a failing `check` uses the default message template rather than
the supplied message, because the source tests the message with JS `||`. -/
theorem check_empty_message_uses_default :
    thrownMessage (check "isPos" (fun _ _ => JsValue.bool false) (some "") (JsValue.num 0)
        (initCtx (JsValue.num 0) "$")) = some "($: 0) ✖ isPos" ∧
    ¬("($: 0) ✖ isPos" = "") := ⟨rfl, by decide⟩

/-- C7 amended: `check` passes the value through unchanged exactly when
the predicate returns the literal boolean `true`; any other return is a
failure whose message is the caller-supplied message when that is given
and non-empty (an empty supplied message falls back to the default, like
an absent one), and otherwise the default template built from the current
path, the rendered value and the predicate's declared name (`check` when
it is anonymous); the failure is stamped with that name and the current
location. -/
theorem check_predicate_gate (fnName : String) (fn : JsValue → Ctx → JsValue)
    (msg : Option String) (value : JsValue) (ctx : Ctx) :
    check fnName fn msg value ctx =
      (if isTrueLiteral (fn value ctx) then (.ok value, ctx)
       else
        (.error (stampError (if fnName = "" then "check" else fnName) value ctx
          (mkError (jsOr msg ("(" ++ ctx.path ++ ": " ++ formatValue value ++ ") ✖ "
            ++ (if fnName = "" then "check" else fnName))))), ctx)) ∧
    (isTrueLiteral (fn value ctx) = true ↔ fn value ctx = JsValue.bool true) := by
  constructor
  · rw [check_eq_handler]
    rcases Bool.eq_false_or_eq_true (isTrueLiteral (fn value ctx)) with h | h
    · rw [if_pos h, createValidator_ok_iff]
      show (if isTrueLiteral (fn value ctx) then _ else _) = _
      rw [if_pos h]
    · rw [if_neg (show ¬(isTrueLiteral (fn value ctx) = true) by
        rw [h]; exact Bool.false_ne_true)]
      have hh : checkHandler fnName fn msg value ctx
          = (.error (mkError (jsOr msg ("(" ++ ctx.path ++ ": " ++ formatValue value ++ ") ✖ "
            ++ (if fnName = "" then "check" else fnName)))), ctx) := by
        show (if isTrueLiteral (fn value ctx) then _ else _) = _
        rw [if_neg (by rw [h]; exact Bool.false_ne_true)]
      rw [createValidator_error_eq _ _ value ctx ctx _ hh, if_pos (falsy_mkError _)]
  · cases hv : fn value ctx <;> simp [isTrueLiteral]

/-! Fail-fast structural validation (claim C3). -/

/-- C3: validating the nested object against the nested shape fails with
error path exactly `$.user.age`, validating the mixed array against the
array-of-number schema fails with error path exactly `$[1]`, and in both
cases the failure propagates immediately with the original input as the
returned result (no partial result). -/
theorem structural_fail_fast_paths :
    (validate nestedSchema nestedInput "$").isValid = false ∧
    (validate nestedSchema nestedInput "$").errorPath = some "$.user.age" ∧
    (validate nestedSchema nestedInput "$").resultValue = nestedInput ∧
    (validate arraySchema arrayInput "$").isValid = false ∧
    (validate arraySchema arrayInput "$").errorPath = some "$[1]" ∧
    (validate arraySchema arrayInput "$").resultValue = arrayInput :=
  ⟨rfl, rfl, rfl, rfl, rfl, rfl⟩

/-! Entry point (claim C8). -/

/-- C8: `validate` returns the schema's output on success, and on any
failure returns the caught error together with the unmodified original
input value, never an intermediate transform. -/
theorem validate_result_shape (schema : Validator) (value : JsValue) (rootPath : String) :
    (∀ (r : JsValue) (ctx' : Ctx),
      schema value (initCtx value rootPath) = (.ok r, ctx') →
      validate schema value rootPath = .ok r) ∧
    (∀ (e : ValidationError) (res : JsValue),
      validate schema value rootPath = .fail e res → res = value) := by
  constructor
  · intro r ctx' h
    unfold validate
    rw [h]
  · intro e res h
    unfold validate at h
    rcases hs : schema value (initCtx value rootPath) with ⟨se, c⟩
    rw [hs] at h
    cases se with
    | ok r => cases h
    | error e2 => cases h; rfl

/-- The stamped error produced when the string check fails on the
transformed value 6 at the root. -/
def stringFailAt6 : ValidationError :=
  { message := "($: 6) ✖ string"
    expected := some "string"
    actual := some (JsValue.num 6)
    path := some "$"
    key := some JsKey.null
    parent := some JsValue.null
    root := some (JsValue.num 5) }

/-- Witness for C8: a pipeline transforms 5 to 6 and then fails; the
failure result carries the original 5, not the intermediate 6. -/
theorem validate_result_shape_witness :
    validate transformThenFail (JsValue.num 5) "$" = .fail stringFailAt6 (JsValue.num 5) ∧
    JsValue.num 5 = JsValue.num 5 :=
  ⟨rfl, (validate_result_shape transformThenFail (JsValue.num 5) "$").2 stringFailAt6
    (JsValue.num 5) rfl⟩

/-! Output shape of `object` (claim C9). -/

/-- A successful run of the shape loop validates each declared member
against the looked-up member value under a fresh child context, and pairs
it with the declared key. -/
theorem objLoop_ok_forall (ctx : Ctx) (value : JsValue) :
    ∀ (shape : List (String × Validator)) (l : List (String × JsValue)),
      objLoop ctx value shape = .ok l →
      List.Forall₂ (fun (m : String × Validator) (o : String × JsValue) =>
        o.1 = m.1 ∧ ∃ c', m.2 (jsGet value m.1)
          (makeCtx (some ctx) (.str m.1) (jsGet value m.1)) = (.ok o.2, c')) shape l := by
  intro shape
  induction shape with
  | nil =>
    intro l h
    unfold objLoop at h
    cases h
    exact List.Forall₂.nil
  | cons kv rest ih =>
    intro l h
    obtain ⟨key, v⟩ := kv
    unfold objLoop at h
    rcases hv : v (jsGet value key) (makeCtx (some ctx) (JsKey.str key) (jsGet value key))
      with ⟨res, c2⟩
    rw [hv] at h
    cases res with
    | error e => cases h
    | ok out =>
      rcases hrest : objLoop ctx value rest with e | outs
      · rw [hrest] at h
        cases h
      · rw [hrest] at h
        cases h
        exact List.Forall₂.cons ⟨rfl, ⟨c2, hv⟩⟩ (ih outs hrest)

/-- A member-wise relation whose right key equals the left key forces the
two key lists to agree. -/
theorem forall₂_keys_eq {R : (String × Validator) → (String × JsValue) → Prop}
    (hR : ∀ m o, R m o → o.1 = m.1) :
    ∀ {shape : List (String × Validator)} {l : List (String × JsValue)},
      List.Forall₂ R shape l → l.map Prod.fst = shape.map Prod.fst := by
  intro shape l h
  induction h with
  | nil => rfl
  | cons h₁ h₂ ih => simp [List.map_cons, ih, hR _ _ h₁]

/-- C9: when `object(shape)` succeeds on a value that passed the
keyed-structure check, the assembled result is an object whose keys are
exactly the keys declared in the shape, in order, each bound to its member
validator's output on the corresponding looked-up member value; keys of
the input not declared in the shape do not appear. -/
theorem object_result_keys (shape : List (String × Validator)) (msg : Option String)
    (fields : List (String × JsValue)) (ctx ctx' : Ctx) (out : JsValue)
    (h : object shape msg (JsValue.obj fields) ctx = (.ok out, ctx')) :
    ∃ l, out = JsValue.obj l ∧ l.map Prod.fst = shape.map Prod.fst ∧
      List.Forall₂ (fun (m : String × Validator) (o : String × JsValue) =>
        o.1 = m.1 ∧ ∃ c', m.2 (jsGet (JsValue.obj fields) m.1)
          (makeCtx (some ctx) (.str m.1) (jsGet (JsValue.obj fields) m.1)) = (.ok o.2, c'))
        shape l := by
  have hh := (createValidator_ok_iff "object" _ (JsValue.obj fields) out ctx ctx').mp h
  dsimp only at hh
  rcases hl : objLoop ctx (JsValue.obj fields) shape with e | l
  · rw [hl] at hh
    simp at hh
  · rw [hl] at hh
    simp only [Prod.mk.injEq, Except.ok.injEq] at hh
    obtain ⟨h1, _⟩ := hh
    have hfa := objLoop_ok_forall ctx (JsValue.obj fields) shape l hl
    exact ⟨l, h1.symm, forall₂_keys_eq (fun m o hmo => hmo.1) hfa, hfa⟩

/-- A concrete shape with one declared key. -/
def demoShape : List (String × Validator) := [("name", string none)]

/-- A concrete input carrying the declared key and an undeclared extra key. -/
def demoFields : List (String × JsValue) :=
  [("name", JsValue.str "a"), ("extra", JsValue.num 1)]

/-- The root context of the concrete object run. -/
def demoCtx : Ctx := initCtx (JsValue.obj demoFields) "$"

/-- Witness for C9 at the concrete shape and input: the output carries
exactly the declared key, not the extra input key. -/
theorem object_result_keys_witness :
    ∃ l, JsValue.obj [("name", JsValue.str "a")] = JsValue.obj l ∧
      l.map Prod.fst = demoShape.map Prod.fst ∧
      List.Forall₂ (fun (m : String × Validator) (o : String × JsValue) =>
        o.1 = m.1 ∧ ∃ c', m.2 (jsGet (JsValue.obj demoFields) m.1)
          (makeCtx (some demoCtx) (.str m.1) (jsGet (JsValue.obj demoFields) m.1))
            = (.ok o.2, c')) demoShape l :=
  object_result_keys demoShape none demoFields demoCtx demoCtx
    (JsValue.obj [("name", JsValue.str "a")]) rfl

end Nana
